import Mathlib

/-!
Shallow embedding of the packet codec, incoming-packet buffer, connection
sharing protocol and daemon dispatch logic of the `v5ctl` repository
(packages `v5d-protocol`, `v5d`, `v5d-interface`), together with theorems
settling the specification claims about them.

Byte streams are modelled as `List Nat` whose elements are byte values
(`< 256` where it matters, stated as hypotheses).  Fallible Rust code
returns `Except`/`Option`; a Rust panic is modelled as `Option.none`.
-/

set_option autoImplicit false

namespace V5ctl

/-! ## Byte-level primitives of the external `vex-v5-serial` codec

The repository builds its packets on the `Decode`/`Encode` traits of the
external `vex-v5-serial` crate.  Decoders consume a prefix of the byte
stream and return the remaining bytes, mirroring the crate's iterator
based `Decode` trait. -/

/-- Decode errors of the external `vex-v5-serial` crate (the variants used
by this repository). -/
inductive DecodeError where
  | packetTooShort
  | invalidHeader
  | unexpectedValue (value : Nat) (expected : List Nat)
  deriving DecidableEq, Repr

/-- External dependency (`u8::decode` of vex-v5-serial): read one byte off
the stream. -/
def decodeU8 : List Nat → Except DecodeError (Nat × List Nat)
  | [] => .error .packetTooShort
  | b :: rest => .ok (b, rest)

/-- Little-endian byte serialization of a `u32` (`u32::to_le_bytes`). -/
def u32ToLeBytes (n : Nat) : List Nat :=
  [n % 256, n / 256 % 256, n / 65536 % 256, n / 16777216 % 256]

/-- External dependency (`u32::decode` of vex-v5-serial): read four bytes
little-endian, per the spec's rule that multi-byte integers are
little-endian. -/
def decodeU32 : List Nat → Except DecodeError (Nat × List Nat)
  | b0 :: b1 :: b2 :: b3 :: rest =>
      .ok (b0 % 256 + b1 % 256 * 256 + b2 % 256 * 65536 + b3 % 256 * 16777216, rest)
  | _ => .error .packetTooShort

/-! ## Connection sharing packet payloads

Embedded from `packages/v5d-protocol/src/packets/sharing.rs` and
`packages/v5d-protocol/src/packets/connection.rs`. -/

/-- The `LockAction` payload of `ConnectionLockPacket`.  The timeout is a
`u32` number of milliseconds, `0` meaning no timeout. -/
inductive LockAction where
  | lock (timeout : Nat)
  | unlock
  deriving DecidableEq, Repr

/-- Embeds `impl Encode for LockAction`: discriminant byte `0` followed by the
little-endian timeout for `Lock`, the single byte `1` for `Unlock`.  The
source's `encode` returns `Ok` on every branch, so the embedding returns
the bytes directly. -/
def LockAction.encode : LockAction → List Nat
  | .lock timeout => 0 :: u32ToLeBytes timeout
  | .unlock => [1]

/-- Embeds `impl Decode for LockAction`. -/
def LockAction.decode (data : List Nat) : Except DecodeError LockAction :=
  match decodeU8 data with
  | .error e => .error e
  | .ok (action, rest) =>
    match action with
    | 0 =>
      match decodeU32 rest with
      | .error e => .error e
      | .ok (timeout, _) => .ok (.lock timeout)
    | 1 => .ok .unlock
    | _ => .error (.unexpectedValue action [0, 1])

/-- The `LockResult` payload of `ConnectionLockReplyPacket`. -/
inductive LockResult where
  | success
  | lockTimeout
  deriving DecidableEq, Repr

/-- Discriminant byte of a `LockResult` (`*self as u8`). -/
def LockResult.toByte : LockResult → Nat
  | .success => 0
  | .lockTimeout => 1

/-- Embeds `impl Encode for LockResult`: the single discriminant byte. -/
def LockResult.encode (r : LockResult) : List Nat := [r.toByte]

/-- Embeds `impl Decode for LockResult`. -/
def LockResult.decode (data : List Nat) : Except DecodeError LockResult :=
  match decodeU8 data with
  | .error e => .error e
  | .ok (byte, _) =>
    match byte with
    | 0 => .ok .success
    | 1 => .ok .lockTimeout
    | _ => .error (.unexpectedValue byte [0, 1])

/-- The `ConnectedType` payload of the connection status and connect
request replies (`packets/connection.rs`). -/
inductive ConnectedType where
  | serial
  | bluetooth
  | noConnection
  deriving DecidableEq, Repr

/-- Discriminant byte of a `ConnectedType` (`*self as u8` with
`Serial = 0`, `Bluetooth = 1`, `NoConnection = 255`). -/
def ConnectedType.toByte : ConnectedType → Nat
  | .serial => 0
  | .bluetooth => 1
  | .noConnection => 255

/-- Embeds `impl Encode for ConnectedType`: the single discriminant byte. -/
def ConnectedType.encode (t : ConnectedType) : List Nat := [t.toByte]

/-- Embeds `impl Decode for ConnectedType`. -/
def ConnectedType.decode (data : List Nat) : Except DecodeError ConnectedType :=
  match decodeU8 data with
  | .error e => .error e
  | .ok (byte, _) =>
    match byte with
    | 0 => .ok .serial
    | 1 => .ok .bluetooth
    | 255 => .ok .noConnection
    | _ => .error (.unexpectedValue byte [0, 1])

/-- The `BluetoothPinResult` payload of `BluetoothPinReplyPacket`. -/
inductive BluetoothPinResult where
  | success
  | incorrectPin
  deriving DecidableEq, Repr

/-! ## Incoming packet buffer and the daemon connection receive loop

Embedded from `packages/v5d-protocol/src/connection.rs`.  Wall-clock time
is a `Nat` number of milliseconds; `Instant::elapsed` at time `now` for a
packet created at `timestamp` is `now - timestamp`. -/

/-- A raw, not yet matched packet read off the transport
(`RawPacket` in `connection.rs`). -/
structure RawPacket where
  bytes : List Nat
  used : Bool
  timestamp : Nat
  deriving DecidableEq, Repr

/-- Embeds `RawPacket::new`: a fresh packet is unused and stamped with the
current time. -/
def RawPacket.new (bytes : List Nat) (now : Nat) : RawPacket :=
  { bytes := bytes, used := false, timestamp := now }

/-- Embeds `RawPacket::is_obsolete`: elapsed time exceeds the timeout, or the
packet has been used. -/
def RawPacket.is_obsolete (p : RawPacket) (timeout now : Nat) : Bool :=
  decide (now - p.timestamp > timeout) || p.used

/-- A typed packet, generic over `Decode + CheckHeader` exactly as the
Rust `receive_packet::<P>` is: a header predicate together with a decoder
on the packet's full byte buffer. -/
structure PacketType (α : Type) where
  hasValidHeader : List Nat → Bool
  decode : List Nat → Except DecodeError α

/-- Embeds `RawPacket::check_header::<H>`. -/
def RawPacket.check_header {α : Type} (P : PacketType α) (p : RawPacket) : Bool :=
  P.hasValidHeader p.bytes

/-- Embeds `RawPacket::decode_and_use::<D>`: decode the packet's bytes and, only
on success, mark the packet as used.  Per the source's doc comment, it
does not fail merely because the packet has already been used. -/
def RawPacket.decode_and_use {α : Type} (P : PacketType α) (p : RawPacket) :
    Except DecodeError α × RawPacket :=
  match P.decode p.bytes with
  | .ok d => (.ok d, { p with used := true })
  | .error e => (.error e, p)

/-- Embeds `trim_packets`: remove packets that are obsolete against a 2-second
(2000 ms) window. -/
def trim_packets (now : Nat) (packets : List RawPacket) : List RawPacket :=
  packets.filter (fun p => !(p.is_obsolete 2000 now))

/-- The `ConnectionError` enum of `connection.rs` (variants relevant to
the receive path). -/
inductive ConnectionError where
  | io
  | decodeFailed (e : DecodeError)
  | timeout
  deriving DecidableEq, Repr

/-- External constant `vex_v5_serial::packets::HOST_BOUND_HEADER`, the
2-byte direction header of host-bound (inbound) device traffic. -/
def HOST_BOUND_HEADER : List Nat := [170, 85]

/-- Embeds `decode_header`: decode two bytes and require them to equal
`HOST_BOUND_HEADER`; a mismatch is `DecodeError::InvalidHeader`. -/
def decode_header (data : List Nat) : Except DecodeError (List Nat) :=
  match data with
  | a :: b :: _ =>
    if [a, b] = HOST_BOUND_HEADER then .ok [a, b] else .error .invalidHeader
  | _ => .error .packetTooShort

/-- External dependency (`VarU16::check_wide` of vex-v5-serial): the high
(continuation) bit of the first size byte, for byte values `< 256`. -/
def varU16CheckWide (b : Nat) : Bool := 128 ≤ b

/-- External dependency (`VarU16::decode` on two bytes): 15-bit value with
the low 7 bits of the first byte as the high part (`a % 128` is
`a & 0x7F` for `a < 256`). -/
def varU16DecodeWide (a b : Nat) : Nat := a % 128 * 256 + b

/-- Embeds `DaemonConnection::receive_one_packet`: read exactly one framed packet
off the stream.  Returns the remaining stream, the new buffer and whether
a packet was appended; a short stream is an I/O error (`read_exact`
failing), and an invalid direction header consumes only the two header
bytes, appends nothing and returns `Ok`. -/
def receive_one_packet (now : Nat) (stream : List Nat) (buffer : List RawPacket) :
    Except ConnectionError (List Nat × List RawPacket × Bool) :=
  match stream with
  | h1 :: h2 :: rest =>
    match decode_header [h1, h2] with
    | .error _ => .ok (rest, buffer, false)
    | .ok _ =>
      match rest with
      | id :: s1 :: rest3 =>
        if varU16CheckWide s1 then
          match rest3 with
          | s2 :: rest4 =>
            let size := varU16DecodeWide s1 s2
            if size ≤ rest4.length then
              .ok (rest4.drop size,
                   buffer ++ [RawPacket.new ([h1, h2, id, s1, s2] ++ rest4.take size) now],
                   true)
            else .error .io
          | [] => .error .io
        else
          if s1 ≤ rest3.length then
            .ok (rest3.drop s1,
                 buffer ++ [RawPacket.new ([h1, h2, id, s1] ++ rest3.take s1) now],
                 true)
          else .error .io
      | _ => .error .io
  | _ => .error .io

/-- Observable events of one `receive_packet` call, in program order:
a successful buffer match, a header-matched decode failure, a
`trim_packets` call, a push of one received packet. -/
inductive Event where
  | matchOk
  | matchErr
  | trim
  | push
  deriving DecidableEq, Repr

/-- Scan the buffer in insertion order for the first packet whose header
matches, splitting the buffer around it (the `for packet in
self.incoming_packets.iter_mut()` loop of `receive_packet`). -/
def scanBuffer {α : Type} (P : PacketType α) :
    List RawPacket → Option (List RawPacket × RawPacket × List RawPacket)
  | [] => none
  | p :: ps =>
    if p.check_header P then some ([], p, ps)
    else (scanBuffer P ps).map (fun pre_q_post =>
      (p :: pre_q_post.1, pre_q_post.2.1, pre_q_post.2.2))

/-- Result of one `receive_packet` call: the returned value, the final
buffer, the remaining input stream, the event trace, and the pre-marking
state of the buffered packet the call matched, if any. -/
structure LoopResult (α : Type) where
  result : Except ConnectionError α
  buffer : List RawPacket
  stream : List Nat
  trace : List Event
  source : Option RawPacket
  deriving Repr

/-- Embeds `DaemonConnection::receive_packet::<P>`: loop, scanning the buffer in
insertion order for a header match; on a match, `decode_and_use` it — on
success trim and return the decoded packet, on failure mark the packet
used and return the error untrimmed; with no match, trim, read one more
framed packet and continue.  The `select!` race against `sleep(timeout)`
is modelled by fuel: exhausted fuel is the `Timeout` arm winning. -/
def receive_packet {α : Type} (P : PacketType α) (now : Nat) :
    Nat → List Nat → List RawPacket → LoopResult α
  | 0, stream, buffer =>
    { result := .error .timeout, buffer := buffer, stream := stream,
      trace := [], source := none }
  | fuel + 1, stream, buffer =>
    match scanBuffer P buffer with
    | some (pre, p, post) =>
      match p.decode_and_use P with
      | (.ok d, p') =>
        { result := .ok d,
          buffer := trim_packets now (pre ++ p' :: post),
          stream := stream,
          trace := [.matchOk, .trim],
          source := some p }
      | (.error e, p') =>
        { result := .error (.decodeFailed e),
          buffer := pre ++ { p' with used := true } :: post,
          stream := stream,
          trace := [.matchErr],
          source := some p }
    | none =>
      let buffer1 := trim_packets now buffer
      match receive_one_packet now stream buffer1 with
      | .error e =>
        { result := .error e, buffer := buffer1, stream := stream,
          trace := [.trim], source := none }
      | .ok (stream', buffer2, pushed) =>
        let r := receive_packet P now fuel stream' buffer2
        { result := r.result, buffer := r.buffer, stream := r.stream,
          trace := .trim :: (if pushed then [.push] else []) ++ r.trace,
          source := r.source }

/-! ## Claim C1: used packets and subsequent receive calls -/

/-- Every used packet in the buffer fails to decode as `P`.  This holds
for the empty buffer of a fresh `DaemonConnection` and is preserved by
`receive_packet::<P>` calls at the same type `P`. -/
def poisonedFor {α : Type} (P : PacketType α) (buffer : List RawPacket) : Prop :=
  ∀ p ∈ buffer, p.used = true → ∀ a : α, P.decode p.bytes ≠ .ok a

/-! ## Claim C3: the used flag, trim, and when trim runs -/

/-- Whether the event list contains a `trim` event. -/
def containsTrim : List Event → Bool
  | [] => false
  | e :: rest => decide (e = Event.trim) || containsTrim rest

/-- Every occurrence of `target` is eventually followed by a `trim`
event. -/
def trimFollows (target : Event) : List Event → Bool
  | [] => true
  | e :: rest => (!(decide (e = target)) || containsTrim rest) && trimFollows target rest

/-- Helper for `pushPrecededByTrim`: every `push` in the list is
immediately preceded by its predecessor, starting with `prev`, being a
`trim`. -/
def adjOk : Event → List Event → Bool
  | _, [] => true
  | prev, e :: rest => (!(decide (e = Event.push)) || decide (prev = Event.trim)) && adjOk e rest

/-- Every `push` event is immediately preceded by a `trim` event (and the
trace does not start with a `push`). -/
def pushPrecededByTrim : List Event → Bool
  | [] => true
  | e :: rest => !(decide (e = Event.push)) && adjOk e rest

/-! ## Connection sharing commands

Embedded from `packages/v5d-protocol/src/commands/sharing.rs`.  The
transport is abstracted into an environment supplying the
`try_into_inner` result of each reply packet; the interactions the
command performs are recorded in program order. -/

/-- The `Cdc2Ack` codes the sharing commands raise as errors. -/
inductive Cdc2AckCode where
  | nackCode
  | timeoutCode
  deriving DecidableEq, Repr

/-- Errors surfaced by a sharing command's `execute`. -/
inductive ExecError where
  | nack (code : Cdc2AckCode)
  | transport
  deriving DecidableEq, Repr

/-- The request packets the sharing commands send. -/
inductive Request where
  | conType
  | connectRequest (allowedTypes : Nat)
  | blePin (pin : List Nat)
  | conLock (action : LockAction)
  deriving DecidableEq, Repr

/-- One transport interaction: a `packet_handshake` with its timeout in
milliseconds and its attempt count, or a bare `send_packet` followed by
`receive_packet` with the given receive timeout (`none` models
`Duration::MAX`). -/
inductive Interaction where
  | handshake (timeoutMs attempts : Nat) (req : Request)
  | sendRecv (recvTimeoutMs : Option Nat) (req : Request)
  deriving DecidableEq, Repr

/-- Replies the remote daemon yields to each request kind, as seen after
`try_into_inner` (an `Err` models any handshake or decode failure). -/
structure SharingEnv where
  statusReply : Except ExecError ConnectedType
  connectReply : Except ExecError ConnectedType
  pinReply : Except ExecError BluetoothPinResult
  lockReply : Except ExecError LockResult

/-- Embeds `LockConnection::execute`: send a `Lock` action with the requested
timeout (0 when none was given), await `ConnectionLockReplyPacket` within
`lock_timeout` milliseconds (unbounded when none), and map a
`LockTimeout` result to a `Cdc2Ack::Timeout` error. -/
def LockConnection.execute (lockTimeout : Option Nat) (env : SharingEnv) :
    List Interaction × Except ExecError Unit :=
  let call := Interaction.sendRecv lockTimeout (.conLock (.lock (lockTimeout.getD 0)))
  match env.lockReply with
  | .error e => ([call], .error e)
  | .ok .success => ([call], .ok ())
  | .ok .lockTimeout => ([call], .error (.nack .timeoutCode))

/-- Embeds `StartConnection::execute`: check the connection status with a 100 ms
single-attempt handshake; when `NoConnection`, request a connection with
a 5-second timeout and 3 attempts listing the allowed types; when that
negotiates Bluetooth and a PIN was supplied, run the PIN handshake and
fail with `Nack` on a non-success pin result — in every other negotiated
outcome (including a successful `Serial` negotiation) fail with `Nack`.
Finally (when connected from the start, or after a successful Bluetooth
PIN exchange) run `LockConnection`. -/
def StartConnection.execute (lockTimeout : Option Nat) (preferedTypes : Nat)
    (bluetoothPin : Option (List Nat)) (env : SharingEnv) :
    List Interaction × Except ExecError Unit :=
  let statusCall := Interaction.handshake 100 1 .conType
  match env.statusReply with
  | .error e => ([statusCall], .error e)
  | .ok status =>
    if status = ConnectedType.noConnection then
      let connectCall := Interaction.handshake 5000 3 (.connectRequest preferedTypes)
      match env.connectReply with
      | .error e => ([statusCall, connectCall], .error e)
      | .ok res =>
        match res, bluetoothPin with
        | .bluetooth, some pin =>
          let pinCall := Interaction.handshake 100 1 (.blePin pin)
          match env.pinReply with
          | .error e => ([statusCall, connectCall, pinCall], .error e)
          | .ok r =>
            if r = BluetoothPinResult.success then
              let lock := LockConnection.execute lockTimeout env
              ([statusCall, connectCall, pinCall] ++ lock.1, lock.2)
            else ([statusCall, connectCall, pinCall], .error (.nack .nackCode))
        | _, _ => ([statusCall, connectCall], .error (.nack .nackCode))
    else
      let lock := LockConnection.execute lockTimeout env
      ([statusCall] ++ lock.1, lock.2)

/-! ## Base64 program data (v5d-interface/src/lib.rs) -/

/-- External dependency (the `base64` crate's standard alphabet): the
6-bit value of one base64 character. -/
def base64CharValue (c : Char) : Option Nat :=
  if 'A' ≤ c ∧ c ≤ 'Z' then some (c.toNat - 65)
  else if 'a' ≤ c ∧ c ≤ 'z' then some (c.toNat - 97 + 26)
  else if '0' ≤ c ∧ c ≤ '9' then some (c.toNat - 48 + 52)
  else if c = '+' then some 62
  else if c = '/' then some 63
  else none

/-- External dependency (the `base64` crate's `STANDARD` engine `decode`):
canonical padded base64 over 4-character blocks; `none` is any decode
error (invalid character, bad length, bad padding, nonzero trailing
bits). -/
def base64DecodeChunks : List Char → Option (List Nat)
  | [] => some []
  | c1 :: c2 :: c3 :: c4 :: rest =>
    match base64CharValue c1, base64CharValue c2 with
    | some v1, some v2 =>
      if c3 = '=' then
        if rest = [] ∧ c4 = '=' ∧ v2 % 16 = 0 then some [v1 * 4 + v2 / 16] else none
      else
        match base64CharValue c3 with
        | some v3 =>
          if c4 = '=' then
            if rest = [] ∧ v3 % 4 = 0 then
              some [v1 * 4 + v2 / 16, v2 % 16 * 16 + v3 / 4]
            else none
          else
            match base64CharValue c4 with
            | some v4 =>
              (base64DecodeChunks rest).map
                (fun tail =>
                  (v1 * 4 + v2 / 16) :: (v2 % 16 * 16 + v3 / 4) :: (v3 % 4 * 64 + v4) :: tail)
            | none => none
        | none => none
    | _, _ => none
  | _ => none

/-- Decode of a base64 string (`STANDARD.decode(s.as_bytes())`). -/
def base64Decode (s : String) : Option (List Nat) :=
  base64DecodeChunks s.data

/-- The `ProgramData` payload of an `UploadProgram` IPC command: base64
strings of the hot and/or cold binaries. -/
inductive ProgramData where
  | hot (data : String)
  | cold (data : String)
  | both (hot cold : String)
  deriving DecidableEq, Repr

/-- Embeds `ProgramData::decode_both`: base64-decode the contained strings.  The
source calls `.unwrap()` on each decode, so a failed decode is a panic,
modelled as `none`. -/
def ProgramData.decode_both : ProgramData → Option (Option (List Nat) × Option (List Nat))
  | .hot h =>
    match base64Decode h with
    | some d => some (some d, none)
    | none => none
  | .cold c =>
    match base64Decode c with
    | some d => some (none, some d)
    | none => none
  | .both h c =>
    match base64Decode h, base64Decode c with
    | some dh, some dc => some (some dh, some dc)
    | _, _ => none

/-- The `vex_v5_serial::commands::file::ProgramData` target of the
`From<ProgramData>` conversion. -/
inductive DeviceProgramData where
  | hotOnly (hot : List Nat)
  | coldOnly (cold : List Nat)
  | bothData (hot cold : List Nat)
  deriving DecidableEq, Repr

/-- Embeds `impl From<ProgramData> for vex_v5_serial::commands::file::ProgramData`:
match on `decode_both`; the `(None, None)` arm is `unreachable!()` and any
panic (from the unwraps inside `decode_both` or from `unreachable!`) is
`none`. -/
def programDataToDevice (pd : ProgramData) : Option DeviceProgramData :=
  match pd.decode_both with
  | none => none
  | some (some h, none) => some (.hotOnly h)
  | some (none, some c) => some (.coldOnly c)
  | some (some h, some c) => some (.bothData h c)
  | some (none, none) => none

/-- A `ProgramData` whose payload strings are not all valid standard
base64. -/
def ProgramData.hasInvalidData : ProgramData → Prop
  | .hot h => base64Decode h = none
  | .cold c => base64Decode c = none
  | .both h c => base64Decode h = none ∨ base64Decode c = none

/-! ## Daemon command dispatch (packages/v5d/src/daemon.rs) -/

/-- The `AfterFileUpload` post-upload action of the IPC interface. -/
inductive AfterFileUpload where
  | doNothing
  | runProgram
  | showRunScreen
  | halt
  deriving DecidableEq, Repr

/-- IPC commands (`DaemonCommand` in v5d-interface). -/
inductive DaemonCommand where
  | mockTap (x y : Nat)
  | uploadProgram (name description icon programType : String) (slot : Nat)
      (compression : Bool) (afterUpload : AfterFileUpload) (data : ProgramData)
  | shutdown
  | requestPair
  | pairingPin (pin : List Nat)
  | reconnect
  deriving DecidableEq, Repr

/-- The upload phases reported by the daemon's progress callbacks. -/
inductive UploadStep where
  | ini
  | monolith
  | cold
  | hot
  deriving DecidableEq, Repr

/-- IPC responses (`DaemonResponse`).  The `f32` percent of
`TransferProgress` is elided (floating point is irrelevant to the
dispatch-level claims settled here). -/
inductive DaemonResponse where
  | basicAck (successful : Bool)
  | transferProgress (step : UploadStep)
  | transferComplete (result : Except String Unit)
  deriving Repr

/-- The `DaemonError` of daemon.rs. -/
inductive DaemonError where
  | connection
  | serde
  | io
  deriving DecidableEq, Repr

/-- Embeds `Daemon::handle_connection` after the request line has been read:
`parsed` is the `serde_json::from_str` outcome, `perform` the
`perform_command` call (an `Err` models any device I/O or connection
failure during the command).  Returns the response frames written to this
client; a `perform_command` error is converted into a
`BasicAck {successful: false}` reply and the function returns `Ok`. -/
def handle_connection (parsed : Except DaemonError DaemonCommand)
    (perform : DaemonCommand → Except DaemonError (Option DaemonResponse)) :
    Except DaemonError (List DaemonResponse) :=
  match parsed with
  | .error e => .error e
  | .ok command =>
    let response : Option DaemonResponse :=
      match perform command with
      | .ok r => r
      | .error _ => some (.basicAck false)
    match response with
    | some r => .ok [r]
    | none => .ok []

/-- Continuation decision of the accept loop. -/
inductive LoopControl where
  | next
  | stop
  deriving DecidableEq, Repr

/-- One iteration of `Daemon::run`'s accept loop: a successful accept
spawns a handler whose error is only logged, and a failed accept is
logged; neither branch breaks the infinite `loop`. -/
def run_accept_iteration (accepted : Except DaemonError Unit)
    (_handlerOutcome : Except DaemonError (List DaemonResponse)) : LoopControl :=
  match accepted with
  | .ok _ => .next
  | .error _ => .next

/-- Debug-build semantics of the unchecked Rust `u8` subtraction
`a - b`: `none` models the overflow panic. -/
def u8SubChecked (a b : Nat) : Option Nat :=
  if b ≤ a then some (a - b) else none

/-- Release-build semantics of the Rust `u8` subtraction `a - b` for
byte-ranged operands: wrapping subtraction modulo 256. -/
def u8SubWrapping (a b : Nat) : Nat := (a + 256 - b % 256) % 256

/-- The slot passed by `Daemon::perform_command` to the device
`UploadProgram` command: the IPC slot minus one (`slot: slot - 1` in
daemon.rs), debug-build semantics. -/
def uploadDeviceSlotChecked (slot : Nat) : Option Nat := u8SubChecked slot 1

/-- The same slot conversion under release-build wrapping semantics. -/
def uploadDeviceSlotWrapping (slot : Nat) : Nat := u8SubWrapping slot 1

theorem decodeU32_u32ToLeBytes (n : Nat) (rest : List Nat) (h : n < 4294967296) :
    decodeU32 (u32ToLeBytes n ++ rest) = .ok (n, rest) := by
  simp only [u32ToLeBytes, List.cons_append, List.nil_append, decodeU32]
  congr 2
  omega

/-- C6: For every `LockAction` value, `encode` produces exactly the byte 0
followed by the 4-byte little-endian timeout for `Lock {timeout}`, and
exactly the single byte 1 for `Unlock`; and `decode (encode x) = ok x` for
every `LockAction` (with a `u32`-ranged timeout), every `LockResult` and
every `ConnectedType` value. -/
theorem lockAction_codec_roundtrip :
    (∀ t : Nat, LockAction.encode (.lock t) = 0 :: u32ToLeBytes t) ∧
    LockAction.encode .unlock = [1] ∧
    (∀ t : Nat, t < 4294967296 → LockAction.decode (LockAction.encode (.lock t)) = .ok (.lock t)) ∧
    LockAction.decode (LockAction.encode .unlock) = .ok .unlock ∧
    (∀ r : LockResult, LockResult.decode (LockResult.encode r) = .ok r) ∧
    (∀ c : ConnectedType, ConnectedType.decode (ConnectedType.encode c) = .ok c) := by
  refine ⟨fun t => rfl, rfl, fun t ht => ?_, rfl, fun r => ?_, fun c => ?_⟩
  · have h : decodeU32 (u32ToLeBytes t) = .ok (t, []) := by
      have := decodeU32_u32ToLeBytes t [] ht
      simpa using this
    simp only [LockAction.encode, LockAction.decode, decodeU8, h]
  · cases r <;> rfl
  · cases c <;> rfl

/-- Closed witness for `lockAction_codec_roundtrip` at the timeout
305419896 = 0x12345678. -/
theorem lockAction_codec_roundtrip_witness :
    LockAction.encode (.lock 305419896) = [0, 120, 86, 52, 18] ∧
    LockAction.decode (LockAction.encode (.lock 305419896)) = .ok (.lock 305419896) := by
  constructor
  · rfl
  · exact lockAction_codec_roundtrip.2.2.1 305419896 (by decide)

/-! ## Supporting lemmas about the buffer operations -/

theorem scanBuffer_some {α : Type} (P : PacketType α) :
    ∀ (buffer pre : List RawPacket) (p : RawPacket) (post : List RawPacket),
      scanBuffer P buffer = some (pre, p, post) →
      buffer = pre ++ p :: post ∧ (∀ q ∈ pre, q.check_header P = false) ∧
        p.check_header P = true := by
  intro buffer
  induction buffer with
  | nil => intro pre p post h; simp [scanBuffer] at h
  | cons q qs ih =>
    intro pre p post h
    by_cases hq : q.check_header P
    · simp [scanBuffer, hq] at h
      obtain ⟨h1, h2, h3⟩ := h
      subst h1; subst h2; subst h3
      exact ⟨rfl, by simp, hq⟩
    · cases hscan : scanBuffer P qs with
      | none => simp [scanBuffer, hq, hscan] at h
      | some v =>
        obtain ⟨pre', p', post'⟩ := v
        simp only [scanBuffer, hq, Bool.false_eq_true, if_false, hscan, Option.map_some',
          Option.some_inj, Prod.mk.injEq] at h
        obtain ⟨h1, h2, h3⟩ := h
        obtain ⟨hb, hpre, hp⟩ := ih pre' p' post' hscan
        subst h1; subst h2; subst h3
        refine ⟨by simp [hb], ?_, hp⟩
        intro r hr
        rcases List.mem_cons.mp hr with hc | hc
        · subst hc; simpa using hq
        · exact hpre r hc

theorem scanBuffer_none {α : Type} (P : PacketType α) :
    ∀ buffer : List RawPacket, scanBuffer P buffer = none →
      ∀ q ∈ buffer, q.check_header P = false := by
  intro buffer
  induction buffer with
  | nil => intro _ q hq; simp at hq
  | cons r rs ih =>
    intro h q hq
    by_cases hr : r.check_header P
    · simp [scanBuffer, hr] at h
    · simp [scanBuffer, hr, Option.map_eq_none] at h
      rcases List.mem_cons.mp hq with hc | hc
      · subst hc; simpa using hr
      · exact ih (by simp [h]) q hc

theorem scanBuffer_isSome_of_mem {α : Type} (P : PacketType α)
    (buffer : List RawPacket) (q : RawPacket) (hq : q ∈ buffer)
    (hmatch : q.check_header P = true) :
    ∃ pre p post, scanBuffer P buffer = some (pre, p, post) := by
  cases hscan : scanBuffer P buffer with
  | some v => exact ⟨v.1, v.2.1, v.2.2, by simp⟩
  | none =>
    have := scanBuffer_none P buffer hscan q hq
    rw [hmatch] at this
    cases this

theorem mem_trim_packets (now : Nat) (ps : List RawPacket) (q : RawPacket)
    (hq : q ∈ trim_packets now ps) :
    q ∈ ps ∧ q.used = false ∧ now - q.timestamp ≤ 2000 := by
  simp only [trim_packets, List.mem_filter] at hq
  obtain ⟨hmem, hcond⟩ := hq
  simp only [RawPacket.is_obsolete, Bool.not_or, Bool.and_eq_true, Bool.not_eq_true',
    decide_eq_false_iff_not, not_lt] at hcond
  exact ⟨hmem, hcond.2, hcond.1⟩

theorem receive_one_packet_buffer (now : Nat) (stream : List Nat)
    (buffer : List RawPacket) (stream' : List Nat) (buffer' : List RawPacket)
    (pushed : Bool)
    (h : receive_one_packet now stream buffer = .ok (stream', buffer', pushed)) :
    buffer' = buffer ∨ ∃ bytes, buffer' = buffer ++ [RawPacket.new bytes now] := by
  rcases stream with _ | ⟨h1, _ | ⟨h2, rest⟩⟩
  · exact absurd h (by simp [receive_one_packet])
  · exact absurd h (by simp [receive_one_packet])
  · rcases hdr : decode_header [h1, h2] with e | hd
    · simp only [receive_one_packet, hdr, Except.ok.injEq, Prod.mk.injEq] at h
      exact Or.inl h.2.1.symm
    · rcases rest with _ | ⟨id, _ | ⟨s1, rest3⟩⟩
      · exact absurd h (by simp [receive_one_packet, hdr])
      · exact absurd h (by simp [receive_one_packet, hdr])
      · by_cases hw : varU16CheckWide s1
        · rcases rest3 with _ | ⟨s2, rest4⟩
          · exact absurd h (by simp [receive_one_packet, hdr, hw])
          · by_cases hsz : varU16DecodeWide s1 s2 ≤ rest4.length
            · simp only [receive_one_packet, hdr, hw, if_true, hsz, Except.ok.injEq,
                Prod.mk.injEq] at h
              exact Or.inr ⟨_, h.2.1.symm⟩
            · exact absurd h (by simp [receive_one_packet, hdr, hw, hsz])
        · by_cases hsz : s1 ≤ rest3.length
          · simp only [receive_one_packet, hdr, hw, Bool.false_eq_true, if_false, hsz, if_true,
              Except.ok.injEq, Prod.mk.injEq] at h
            exact Or.inr ⟨_, h.2.1.symm⟩
          · exact absurd h (by simp [receive_one_packet, hdr, hw, hsz])

theorem poisonedFor_trim {α : Type} (P : PacketType α) (now : Nat)
    (ps : List RawPacket) : poisonedFor P (trim_packets now ps) := by
  intro q hq hused a
  have := (mem_trim_packets now ps q hq).2.1
  rw [this] at hused
  cases hused

theorem poisonedFor_append_new {α : Type} (P : PacketType α)
    (buffer : List RawPacket) (bytes : List Nat) (now : Nat)
    (h : poisonedFor P buffer) :
    poisonedFor P (buffer ++ [RawPacket.new bytes now]) := by
  intro q hq hused a
  rcases List.mem_append.mp hq with hm | hm
  · exact h q hm hused a
  · simp only [List.mem_singleton] at hm
    subst hm
    cases hused

/-- C1 (amended): at a fixed packet type `P`, on a buffer in which every
used packet fails to decode as `P` (true from connection creation on),
`receive_packet::<P>` preserves that invariant and any packet it decodes
and returns was unused when matched; hence a once-used packet is never
decoded and returned by this or any later `receive_packet::<P>` call. -/
theorem receive_packet_never_returns_used {α : Type} (P : PacketType α)
    (now : Nat) (fuel : Nat) (stream : List Nat) (buffer : List RawPacket)
    (hinv : poisonedFor P buffer) :
    poisonedFor P (receive_packet P now fuel stream buffer).buffer ∧
    (∀ src : RawPacket, (receive_packet P now fuel stream buffer).source = some src →
      (∃ a : α, (receive_packet P now fuel stream buffer).result = .ok a) →
      src.used = false) := by
  induction fuel generalizing stream buffer with
  | zero =>
    refine ⟨hinv, ?_⟩
    intro src hsrc
    simp [receive_packet] at hsrc
  | succ fuel ih =>
    cases hscan : scanBuffer P buffer with
    | some v =>
      obtain ⟨pre, p, post⟩ := v
      obtain ⟨hbuf, hpre, hp⟩ := scanBuffer_some P buffer pre p post hscan
      cases hdec : P.decode p.bytes with
      | ok d =>
        have hpu : p.used = false := by
          by_contra hne
          have := hinv p (by rw [hbuf]; simp) (by simpa using hne) d
          exact this hdec
        constructor
        · simp only [receive_packet, hscan, RawPacket.decode_and_use, hdec]
          exact poisonedFor_trim P now _
        · intro src hsrc _
          simp only [receive_packet, hscan, RawPacket.decode_and_use, hdec,
            Option.some_inj] at hsrc
          rw [← hsrc]
          exact hpu
      | error e =>
        constructor
        · simp only [receive_packet, hscan, RawPacket.decode_and_use, hdec]
          intro q hq hused a
          rw [hbuf] at hinv
          rcases List.mem_append.mp hq with hm | hm
          · exact hinv q (List.mem_append.mpr (Or.inl hm)) hused a
          · rcases List.mem_cons.mp hm with hc | hc
            · subst hc
              simp [hdec]
            · exact hinv q (by simp [hc]) hused a
        · intro src hsrc hok
          obtain ⟨a, ha⟩ := hok
          simp [receive_packet, hscan, RawPacket.decode_and_use, hdec] at ha
    | none =>
      cases hrecv : receive_one_packet now stream (trim_packets now buffer) with
      | error e =>
        constructor
        · simp only [receive_packet, hscan, hrecv]
          exact poisonedFor_trim P now buffer
        · intro src hsrc
          simp [receive_packet, hscan, hrecv] at hsrc
      | ok v =>
        obtain ⟨stream', buffer2, pushed⟩ := v
        have hb2 : poisonedFor P buffer2 := by
          rcases receive_one_packet_buffer now stream (trim_packets now buffer)
            stream' buffer2 pushed hrecv with hsame | ⟨bytes, happ⟩
          · rw [hsame]; exact poisonedFor_trim P now buffer
          · rw [happ]
            exact poisonedFor_append_new P _ bytes now (poisonedFor_trim P now buffer)
        have := ih stream' buffer2 hb2
        constructor
        · simpa only [receive_packet, hscan, hrecv] using this.1
        · intro src hsrc hok
          refine this.2 src ?_ ?_
          · simpa only [receive_packet, hscan, hrecv] using hsrc
          · obtain ⟨a, ha⟩ := hok
            exact ⟨a, by simpa only [receive_packet, hscan, hrecv] using ha⟩

/-- Closed witness for `receive_packet_never_returns_used`: a concrete
buffered packet is matched, returned and the invariant holds afterwards. -/
theorem receive_packet_never_returns_used_witness :
    poisonedFor
      (PacketType.mk (fun b => decide (b = [170, 85, 9, 1, 7]))
        (fun b => if b = [170, 85, 9, 1, 7] then .ok 7 else .error .packetTooShort))
      [RawPacket.new [170, 85, 9, 1, 7] 0] ∧
    (∀ src : RawPacket,
      (receive_packet
        (PacketType.mk (fun b => decide (b = [170, 85, 9, 1, 7]))
          (fun b => if b = [170, 85, 9, 1, 7] then .ok 7 else .error .packetTooShort))
        0 1 [] [RawPacket.new [170, 85, 9, 1, 7] 0]).source = some src →
      (∃ a : Nat,
        (receive_packet
          (PacketType.mk (fun b => decide (b = [170, 85, 9, 1, 7]))
            (fun b => if b = [170, 85, 9, 1, 7] then .ok 7 else .error .packetTooShort))
          0 1 [] [RawPacket.new [170, 85, 9, 1, 7] 0]).result = .ok a) →
      src.used = false) := by
  constructor
  · intro p hp hused a
    simp only [List.mem_singleton] at hp
    subst hp
    cases hused
  · exact (receive_packet_never_returns_used
      (PacketType.mk (fun b => decide (b = [170, 85, 9, 1, 7]))
        (fun b => if b = [170, 85, 9, 1, 7] then .ok 7 else .error .packetTooShort))
      0 1 [] [RawPacket.new [170, 85, 9, 1, 7] 0]
      (by
        intro p hp hused a
        simp only [List.mem_singleton] at hp
        subst hp
        cases hused)).2

/-- C1 as stated is false across packet types: a packet whose header
matches two types (`P1` decodes it with an error, `P2` successfully),
once marked used by a failed `receive_packet::<P1>` call, remains in the
buffer and a subsequent `receive_packet::<P2>` call decodes and returns
that same used packet. -/
theorem receive_packet_returns_used_counterexample :
    (receive_packet
      (PacketType.mk (fun b => decide (b = [170, 85, 9, 1, 7]))
        (fun _ => (.error .packetTooShort : Except DecodeError Nat)))
      0 1 [] [RawPacket.new [170, 85, 9, 1, 7] 0]).buffer
      = [RawPacket.mk [170, 85, 9, 1, 7] true 0] ∧
    (receive_packet
      (PacketType.mk (fun b => decide (b = [170, 85, 9, 1, 7]))
        (fun b => if b = [170, 85, 9, 1, 7] then .ok 7 else .error .packetTooShort))
      0 1 [] [RawPacket.mk [170, 85, 9, 1, 7] true 0]).result = .ok 7 ∧
    (receive_packet
      (PacketType.mk (fun b => decide (b = [170, 85, 9, 1, 7]))
        (fun b => if b = [170, 85, 9, 1, 7] then .ok 7 else .error .packetTooShort))
      0 1 [] [RawPacket.mk [170, 85, 9, 1, 7] true 0]).source
      = some (RawPacket.mk [170, 85, 9, 1, 7] true 0) :=
  ⟨rfl, rfl, rfl⟩

/-! ## Claim C2: first buffered header match wins -/

/-- C2: when the buffer holds at least one packet whose header matches
`P`, the packet `receive_packet::<P>` matches — and, on success, decodes
and returns — is the first such packet in insertion order, even when
several matching packets are present. -/
theorem receive_packet_first_match {α : Type} (P : PacketType α)
    (now fuel : Nat) (stream : List Nat) (buffer : List RawPacket)
    (hmatch : ∃ q ∈ buffer, q.check_header P = true) :
    ∃ pre p post,
      buffer = pre ++ p :: post ∧
      (∀ q ∈ pre, q.check_header P = false) ∧
      p.check_header P = true ∧
      (receive_packet P now (fuel + 1) stream buffer).source = some p ∧
      ∀ a : α, (receive_packet P now (fuel + 1) stream buffer).result = .ok a →
        P.decode p.bytes = .ok a := by
  obtain ⟨q, hq, hqh⟩ := hmatch
  obtain ⟨pre, p, post, hscan⟩ := scanBuffer_isSome_of_mem P buffer q hq hqh
  obtain ⟨hbuf, hpre, hp⟩ := scanBuffer_some P buffer pre p post hscan
  refine ⟨pre, p, post, hbuf, hpre, hp, ?_, ?_⟩
  · cases hdec : P.decode p.bytes with
    | ok d => simp [receive_packet, hscan, RawPacket.decode_and_use, hdec]
    | error e => simp [receive_packet, hscan, RawPacket.decode_and_use, hdec]
  · intro a ha
    cases hdec : P.decode p.bytes with
    | ok d =>
      simp only [receive_packet, hscan, RawPacket.decode_and_use, hdec,
        Except.ok.injEq] at ha
      rw [ha]
    | error e =>
      simp [receive_packet, hscan, RawPacket.decode_and_use, hdec] at ha

/-- Closed witness for `receive_packet_first_match`: with two matching
packets buffered, the first one (in insertion order) is the one decoded
and returned. -/
theorem receive_packet_first_match_witness :
    (∃ q ∈ [RawPacket.mk [170, 85, 3, 0] false 0, RawPacket.mk [170, 85, 3, 1] false 0],
      q.check_header (PacketType.mk (fun b => decide (b.take 3 = [170, 85, 3]))
        (fun b => .ok (b.drop 3))) = true) ∧
    ∃ pre p post,
      [RawPacket.mk [170, 85, 3, 0] false 0, RawPacket.mk [170, 85, 3, 1] false 0]
        = pre ++ p :: post ∧
      (∀ q ∈ pre, q.check_header (PacketType.mk (fun b => decide (b.take 3 = [170, 85, 3]))
        (fun b => .ok (b.drop 3))) = false) ∧
      p.check_header (PacketType.mk (fun b => decide (b.take 3 = [170, 85, 3]))
        (fun b => .ok (b.drop 3))) = true ∧
      (receive_packet (PacketType.mk (fun b => decide (b.take 3 = [170, 85, 3]))
          (fun b => .ok (b.drop 3))) 0 1 []
        [RawPacket.mk [170, 85, 3, 0] false 0, RawPacket.mk [170, 85, 3, 1] false 0]).source
        = some p ∧
      ∀ a : List Nat,
        (receive_packet (PacketType.mk (fun b => decide (b.take 3 = [170, 85, 3]))
            (fun b => .ok (b.drop 3))) 0 1 []
          [RawPacket.mk [170, 85, 3, 0] false 0,
            RawPacket.mk [170, 85, 3, 1] false 0]).result = .ok a →
        (PacketType.mk (fun b => decide (b.take 3 = [170, 85, 3]))
          (fun b => (.ok (b.drop 3) : Except DecodeError (List Nat)))).decode p.bytes
          = .ok a :=
  ⟨⟨RawPacket.mk [170, 85, 3, 0] false 0, by simp, by decide⟩,
    receive_packet_first_match
      (PacketType.mk (fun b => decide (b.take 3 = [170, 85, 3])) (fun b => .ok (b.drop 3)))
      0 0 []
      [RawPacket.mk [170, 85, 3, 0] false 0, RawPacket.mk [170, 85, 3, 1] false 0]
      ⟨RawPacket.mk [170, 85, 3, 0] false 0, by simp, by decide⟩⟩

theorem adjOk_of_pushPrecededByTrim :
    ∀ (t : List Event) (e : Event), pushPrecededByTrim t = true → adjOk e t = true := by
  intro t e h
  cases t with
  | nil => rfl
  | cons f rest =>
    simp only [pushPrecededByTrim, Bool.and_eq_true, Bool.not_eq_true',
      decide_eq_false_iff_not] at h
    simp only [adjOk, Bool.and_eq_true]
    refine ⟨?_, h.2⟩
    simp [h.1]

theorem pushPrecededByTrim_cons_trim (t : List Event) (h : pushPrecededByTrim t = true) :
    pushPrecededByTrim (.trim :: t) = true := by
  simp only [pushPrecededByTrim, Bool.and_eq_true]
  exact ⟨by decide, adjOk_of_pushPrecededByTrim t .trim h⟩

theorem pushPrecededByTrim_cons_trim_push (t : List Event)
    (h : pushPrecededByTrim t = true) :
    pushPrecededByTrim (.trim :: .push :: t) = true := by
  simp only [pushPrecededByTrim, adjOk, Bool.and_eq_true]
  exact ⟨by decide, by decide, adjOk_of_pushPrecededByTrim t .push h⟩

theorem pushPrecededByTrim_trace {α : Type} (P : PacketType α) (now : Nat) :
    ∀ (fuel : Nat) (stream : List Nat) (buffer : List RawPacket),
      pushPrecededByTrim (receive_packet P now fuel stream buffer).trace = true := by
  intro fuel
  induction fuel with
  | zero => intro stream buffer; rfl
  | succ fuel ih =>
    intro stream buffer
    cases hscan : scanBuffer P buffer with
    | some v =>
      obtain ⟨pre, p, post⟩ := v
      cases hdec : P.decode p.bytes with
      | ok d => simp [receive_packet, hscan, RawPacket.decode_and_use, hdec]; rfl
      | error e => simp [receive_packet, hscan, RawPacket.decode_and_use, hdec]; rfl
    | none =>
      cases hrecv : receive_one_packet now stream (trim_packets now buffer) with
      | error e => simp [receive_packet, hscan, hrecv]; rfl
      | ok v =>
        obtain ⟨stream', buffer2, pushed⟩ := v
        have hrec := ih stream' buffer2
        simp only [receive_packet, hscan, hrecv]
        cases pushed with
        | false =>
          simp only [Bool.false_eq_true, if_false, List.nil_append]
          exact pushPrecededByTrim_cons_trim _ hrec
        | true =>
          simp only [if_true, List.cons_append, List.nil_append]
          exact pushPrecededByTrim_cons_trim_push _ hrec

theorem trimFollows_cons_ne (target e : Event) (t : List Event) (h : e ≠ target) :
    trimFollows target (e :: t) = trimFollows target t := by
  simp [trimFollows, h]

theorem trimFollows_matchOk_trace {α : Type} (P : PacketType α) (now : Nat) :
    ∀ (fuel : Nat) (stream : List Nat) (buffer : List RawPacket),
      trimFollows .matchOk (receive_packet P now fuel stream buffer).trace = true := by
  intro fuel
  induction fuel with
  | zero => intro stream buffer; rfl
  | succ fuel ih =>
    intro stream buffer
    cases hscan : scanBuffer P buffer with
    | some v =>
      obtain ⟨pre, p, post⟩ := v
      cases hdec : P.decode p.bytes with
      | ok d => simp [receive_packet, hscan, RawPacket.decode_and_use, hdec]; rfl
      | error e => simp [receive_packet, hscan, RawPacket.decode_and_use, hdec]; rfl
    | none =>
      cases hrecv : receive_one_packet now stream (trim_packets now buffer) with
      | error e => simp [receive_packet, hscan, hrecv]; rfl
      | ok v =>
        obtain ⟨stream', buffer2, pushed⟩ := v
        have hrec := ih stream' buffer2
        simp only [receive_packet, hscan, hrecv]
        cases pushed with
        | false =>
          simp only [Bool.false_eq_true, if_false, List.nil_append, List.singleton_append]
          rw [trimFollows_cons_ne .matchOk .trim _ (by decide)]
          exact hrec
        | true =>
          simp only [if_true, List.cons_append, List.nil_append, List.singleton_append]
          rw [trimFollows_cons_ne .matchOk .trim _ (by decide),
            trimFollows_cons_ne .matchOk .push _ (by decide)]
          exact hrec

/-- C3 (amended): a `RawPacket`'s `used` flag, once set, is never unset
(`decode_and_use` only ever sets it, and `trim_packets` only removes
packets); immediately after any `trim_packets` call the buffer contains
no packet that is used or whose age exceeds 2 seconds; and within
`receive_packet`, trim runs after every successful match and immediately
before every push (not after every push: a decode-failure return leaves
the freshly used packet in the buffer with no trailing trim). -/
theorem used_flag_and_trim_invariant :
    (∀ (α : Type) (P : PacketType α) (p : RawPacket), p.used = true →
      ((p.decode_and_use P).2).used = true) ∧
    (∀ (now : Nat) (ps : List RawPacket) (q : RawPacket),
      q ∈ trim_packets now ps →
      q ∈ ps ∧ q.used = false ∧ now - q.timestamp ≤ 2000) ∧
    (∀ (α : Type) (P : PacketType α) (now fuel : Nat) (stream : List Nat)
      (buffer : List RawPacket),
      pushPrecededByTrim (receive_packet P now fuel stream buffer).trace = true ∧
      trimFollows .matchOk (receive_packet P now fuel stream buffer).trace = true) := by
  refine ⟨?_, ?_, ?_⟩
  · intro α P p hused
    cases h : P.decode p.bytes with
    | ok d => simp [RawPacket.decode_and_use, h]
    | error e => simp [RawPacket.decode_and_use, h, hused]
  · intro now ps q hq
    exact mem_trim_packets now ps q hq
  · intro α P now fuel stream buffer
    exact ⟨pushPrecededByTrim_trace P now fuel stream buffer,
      trimFollows_matchOk_trace P now fuel stream buffer⟩

/-- Closed witness for `used_flag_and_trim_invariant` on concrete data:
a used packet stays used through `decode_and_use`, a concrete trim output
is clean, and a concrete receive trace satisfies the trim ordering. -/
theorem used_flag_and_trim_invariant_witness :
    ((RawPacket.mk [1, 2] true 0).decode_and_use
      (PacketType.mk (fun _ => true) (fun b => (.ok b : Except DecodeError (List Nat))))).2.used
      = true ∧
    (RawPacket.mk [5] false 100 ∈
        trim_packets 300 [RawPacket.mk [5] false 100, RawPacket.mk [6] true 100] →
      RawPacket.mk [5] false 100 ∈ [RawPacket.mk [5] false 100, RawPacket.mk [6] true 100] ∧
        (RawPacket.mk [5] false 100).used = false ∧
        300 - (RawPacket.mk [5] false 100).timestamp ≤ 2000) ∧
    pushPrecededByTrim
      (receive_packet (PacketType.mk (fun b => decide (b = [170, 85, 9, 1, 7]))
          (fun b => (.ok b : Except DecodeError (List Nat))))
        0 2 [170, 85, 9, 1, 7] []).trace = true :=
  ⟨used_flag_and_trim_invariant.1 (List Nat)
      (PacketType.mk (fun _ => true) (fun b => .ok b)) (RawPacket.mk [1, 2] true 0) rfl,
    fun h => used_flag_and_trim_invariant.2.1 300
      [RawPacket.mk [5] false 100, RawPacket.mk [6] true 100] (RawPacket.mk [5] false 100) h,
    (used_flag_and_trim_invariant.2.2 (List Nat)
      (PacketType.mk (fun b => decide (b = [170, 85, 9, 1, 7])) (fun b => .ok b))
      0 2 [170, 85, 9, 1, 7] []).1⟩

/-- C3 as stated is refuted in its claim that trim is invoked after every
push: in this concrete run a packet is pushed and then immediately
matched with a decode failure, so the call returns with no trim after the
push and the marked-used packet still in the buffer. -/
theorem trim_after_push_counterexample :
    (receive_packet (PacketType.mk (fun b => decide (b = [170, 85, 9, 1, 7]))
        (fun _ => (.error .packetTooShort : Except DecodeError Nat)))
      0 2 [170, 85, 9, 1, 7] []).trace = [.trim, .push, .matchErr] ∧
    trimFollows .push [.trim, .push, .matchErr] = false ∧
    (receive_packet (PacketType.mk (fun b => decide (b = [170, 85, 9, 1, 7]))
        (fun _ => (.error .packetTooShort : Except DecodeError Nat)))
      0 2 [170, 85, 9, 1, 7] []).buffer = [RawPacket.mk [170, 85, 9, 1, 7] true 0] :=
  ⟨rfl, rfl, rfl⟩

/-! ## Claim C4: invalid direction headers are skipped as noise -/

/-- C4: an inbound framed packet whose 2-byte header differs from the
host-bound direction constant is discarded as noise — `receive_one_packet`
returns `Ok`, consumes only the two header bytes and appends nothing —
and the receive loop then continues on the remaining stream exactly as it
would have started there, so a subsequent correctly-headed packet is
still matched normally. -/
theorem invalid_header_skipped {α : Type} (P : PacketType α) :
    (∀ (now h1 h2 : Nat) (rest : List Nat) (buffer : List RawPacket),
      [h1, h2] ≠ HOST_BOUND_HEADER →
      receive_one_packet now (h1 :: h2 :: rest) buffer = .ok (rest, buffer, false)) ∧
    (∀ (now fuel h1 h2 : Nat) (stream : List Nat) (buffer : List RawPacket),
      [h1, h2] ≠ HOST_BOUND_HEADER →
      scanBuffer P buffer = none →
      (receive_packet P now (fuel + 1) (h1 :: h2 :: stream) buffer).result
          = (receive_packet P now fuel stream (trim_packets now buffer)).result ∧
        (receive_packet P now (fuel + 1) (h1 :: h2 :: stream) buffer).source
          = (receive_packet P now fuel stream (trim_packets now buffer)).source ∧
        (receive_packet P now (fuel + 1) (h1 :: h2 :: stream) buffer).buffer
          = (receive_packet P now fuel stream (trim_packets now buffer)).buffer ∧
        (receive_packet P now (fuel + 1) (h1 :: h2 :: stream) buffer).stream
          = (receive_packet P now fuel stream (trim_packets now buffer)).stream) := by
  have hone : ∀ (now h1 h2 : Nat) (rest : List Nat) (buffer : List RawPacket),
      [h1, h2] ≠ HOST_BOUND_HEADER →
      receive_one_packet now (h1 :: h2 :: rest) buffer = .ok (rest, buffer, false) := by
    intro now h1 h2 rest buffer hne
    simp [receive_one_packet, decode_header, hne]
  refine ⟨hone, ?_⟩
  intro now fuel h1 h2 stream buffer hne hscan
  have hrecv := hone now h1 h2 stream (trim_packets now buffer) hne
  simp [receive_packet, hscan, hrecv]

/-- Closed witness for `invalid_header_skipped`: the spec's noise header
0xAA 0xAA is consumed without error, and the loop then matches the
correctly-headed packet that follows it on the stream. -/
theorem invalid_header_skipped_witness :
    ([170, 170] ≠ HOST_BOUND_HEADER ∧
      receive_one_packet 0 [170, 170, 170, 85, 9, 1, 7] [] = .ok ([170, 85, 9, 1, 7], [], false)) ∧
    (receive_packet (PacketType.mk (fun b => decide (b = [170, 85, 9, 1, 7]))
        (fun b => (.ok b : Except DecodeError (List Nat))))
      0 3 [170, 170, 170, 85, 9, 1, 7] []).result = .ok [170, 85, 9, 1, 7] :=
  ⟨⟨by decide,
    (invalid_header_skipped (PacketType.mk (fun b => decide (b = [170, 85, 9, 1, 7]))
      (fun b => (.ok b : Except DecodeError (List Nat))))).1
      0 170 170 [170, 85, 9, 1, 7] [] (by decide)⟩,
    rfl⟩

/-! ## Claim C7: exact framing of one received packet -/

/-- C7: `receive_one_packet` reads exactly one framed packet per call —
2 header bytes, 1 command-id byte, a 1-byte size field when the first
size byte's continuation bit is clear and a 2-byte size field otherwise,
then exactly the declared number of payload bytes — and appends exactly
those bytes as a single new `RawPacket` to the buffer, leaving the rest
of the stream untouched. -/
theorem receive_one_packet_framing :
    (∀ (now id s1 : Nat) (payload rest : List Nat) (buffer : List RawPacket),
      s1 < 128 → payload.length = s1 →
      receive_one_packet now (170 :: 85 :: id :: s1 :: (payload ++ rest)) buffer =
        .ok (rest, buffer ++ [RawPacket.new ([170, 85, id, s1] ++ payload) now], true)) ∧
    (∀ (now id s1 s2 : Nat) (payload rest : List Nat) (buffer : List RawPacket),
      128 ≤ s1 → payload.length = s1 % 128 * 256 + s2 →
      receive_one_packet now (170 :: 85 :: id :: s1 :: s2 :: (payload ++ rest)) buffer =
        .ok (rest, buffer ++ [RawPacket.new ([170, 85, id, s1, s2] ++ payload) now], true)) := by
  constructor
  · intro now id s1 payload rest buffer hnarrow hlen
    subst hlen
    have hwide : varU16CheckWide payload.length = false := by
      simp only [varU16CheckWide, decide_eq_false_iff_not, not_le]
      exact hnarrow
    simp [receive_one_packet, decode_header, HOST_BOUND_HEADER, hwide, List.take_left,
      List.drop_left]
  · intro now id s1 s2 payload rest buffer hwide hlen
    have hw : varU16CheckWide s1 = true := by
      simp only [varU16CheckWide, decide_eq_true_eq]
      exact hwide
    have hsz : varU16DecodeWide s1 s2 = payload.length := by
      rw [hlen]; rfl
    simp [receive_one_packet, decode_header, HOST_BOUND_HEADER, hw, hsz, List.take_left,
      List.drop_left]

/-- Closed witness for `receive_one_packet_framing`: one narrow-size frame
(size byte 2, two payload bytes) and one wide-size frame (size bytes
0x81 0x01 declaring 257 payload bytes) are each consumed exactly and
appended as a single packet. -/
theorem receive_one_packet_framing_witness :
    (2 < 128 ∧ ([7, 8] : List Nat).length = 2 ∧
      receive_one_packet 0 (170 :: 85 :: 9 :: 2 :: ([7, 8] ++ [99])) [] =
        .ok ([99], [RawPacket.new [170, 85, 9, 2, 7, 8] 0], true)) ∧
    (128 ≤ 129 ∧ (List.replicate 257 (0 : Nat)).length = 129 % 128 * 256 + 1 ∧
      receive_one_packet 0 (170 :: 85 :: 9 :: 129 :: 1 :: (List.replicate 257 (0 : Nat) ++ [42])) [] =
        .ok ([42], [RawPacket.new ([170, 85, 9, 129, 1] ++ List.replicate 257 (0 : Nat)) 0], true)) :=
  ⟨⟨by decide, by decide,
    receive_one_packet_framing.1 0 9 2 [7, 8] [99] [] (by decide) (by decide)⟩,
    ⟨by decide, (by rw [List.length_replicate]),
    receive_one_packet_framing.2 0 9 129 1 (List.replicate 257 0) [42] []
      (by decide) (by rw [List.length_replicate])⟩⟩

/-! ## Claim C5: StartConnection control flow -/

/-- C5: evaluation of `StartConnection::execute` at the failing input.
With no existing connection and a connect request (5 s, 3 attempts) that
successfully negotiates `Serial`, the command — contrary to the claim and
the spec, which proceed to `LockConnection` for any successful
negotiation — returns `Err(Cdc2Ack::Nack)` and never issues the
`LockConnection` request, because the source's `else` arm fires whenever
the negotiated type is not Bluetooth-with-PIN.  For contrast, the
Bluetooth-with-PIN path and the already-connected path do reach the lock
request, as the claim describes. -/
theorem startConnection_serial_negotiation_nacks :
    StartConnection.execute none 3 (some [1, 2, 3, 4])
      (SharingEnv.mk (.ok .noConnection) (.ok .serial) (.ok .success) (.ok .success))
      = ([Interaction.handshake 100 1 .conType,
          Interaction.handshake 5000 3 (.connectRequest 3)],
         .error (.nack .nackCode)) ∧
    StartConnection.execute none 3 (some [1, 2, 3, 4])
      (SharingEnv.mk (.ok .noConnection) (.ok .bluetooth) (.ok .success) (.ok .success))
      = ([Interaction.handshake 100 1 .conType,
          Interaction.handshake 5000 3 (.connectRequest 3),
          Interaction.handshake 100 1 (.blePin [1, 2, 3, 4]),
          Interaction.sendRecv none (.conLock (.lock 0))],
         .ok ()) ∧
    StartConnection.execute (some 500) 3 none
      (SharingEnv.mk (.ok .serial) (.ok .serial) (.ok .success) (.ok .success))
      = ([Interaction.handshake 100 1 .conType,
          Interaction.sendRecv (some 500) (.conLock (.lock 500))],
         .ok ()) :=
  ⟨rfl, rfl, rfl⟩

/-! ## Claim C8: perform_command errors degrade to a failed ack -/

/-- C8: when `perform_command` returns an error for a parsed command,
`handle_connection` replies to that client with
`BasicAck {successful: false}` and itself returns `Ok`, and no outcome of
a connection ever makes the accept loop stop, so neither the session
handling nor the daemon's accept loop is terminated by the failure. -/
theorem perform_error_degrades_to_failed_ack
    (command : DaemonCommand)
    (perform : DaemonCommand → Except DaemonError (Option DaemonResponse))
    (e : DaemonError) (h : perform command = .error e) :
    handle_connection (.ok command) perform = .ok [DaemonResponse.basicAck false] ∧
    (∀ (accepted : Except DaemonError Unit)
      (outcome : Except DaemonError (List DaemonResponse)),
      run_accept_iteration accepted outcome = .next) := by
  constructor
  · simp [handle_connection, h]
  · intro accepted outcome
    cases accepted with
    | ok v => rfl
    | error e => rfl

/-- Closed witness for `perform_error_degrades_to_failed_ack`: a `MockTap`
whose device exchange fails with a connection error is acknowledged with
`successful: false` and the loop continues. -/
theorem perform_error_degrades_to_failed_ack_witness :
    (fun _ : DaemonCommand => (.error .connection : Except DaemonError (Option DaemonResponse)))
        (DaemonCommand.mockTap 10 20) = .error .connection ∧
    handle_connection (.ok (DaemonCommand.mockTap 10 20))
      (fun _ => .error .connection) = .ok [DaemonResponse.basicAck false] ∧
    run_accept_iteration (.ok ()) (.ok []) = .next :=
  ⟨rfl,
    (perform_error_degrades_to_failed_ack (DaemonCommand.mockTap 10 20)
      (fun _ => .error .connection) .connection rfl).1,
    (perform_error_degrades_to_failed_ack (DaemonCommand.mockTap 10 20)
      (fun _ => .error .connection) .connection rfl).2 (.ok ()) (.ok [])⟩

/-! ## Claim C9: the unchecked slot conversion -/

/-- C9: the daemon converts the 1-indexed IPC `UploadProgram` slot to the
device slot by the unchecked `u8` subtraction `slot - 1`: every slot in
`1..=255` yields `slot - 1` under both debug and release semantics, while
slot 0 underflows — a panic in debug builds and a wrap to 255 in release
builds — rather than producing an error reply. -/
theorem upload_slot_conversion :
    (∀ slot : Nat, 1 ≤ slot → slot ≤ 255 →
      uploadDeviceSlotChecked slot = some (slot - 1) ∧
      uploadDeviceSlotWrapping slot = slot - 1) ∧
    uploadDeviceSlotChecked 0 = none ∧
    uploadDeviceSlotWrapping 0 = 255 := by
  refine ⟨?_, rfl, rfl⟩
  intro slot h1 h255
  constructor
  · simp [uploadDeviceSlotChecked, u8SubChecked, h1]
  · simp only [uploadDeviceSlotWrapping, u8SubWrapping]
    omega

/-- Closed witness for `upload_slot_conversion` at slot 1 (the first
valid 1-indexed slot maps to device slot 0). -/
theorem upload_slot_conversion_witness :
    (1 ≤ 1 ∧ 1 ≤ 255) ∧
    uploadDeviceSlotChecked 1 = some 0 ∧ uploadDeviceSlotWrapping 1 = 0 :=
  ⟨⟨by decide, by decide⟩, upload_slot_conversion.1 1 (by decide) (by decide)⟩

/-! ## Claim C10: invalid base64 panics the conversion -/

/-- C10: `ProgramData::decode_both` unwraps the base64 decoding of the
hot/cold payload strings, so for any `UploadProgram` data field that is
not valid standard base64 both `decode_both` and the
`From<ProgramData>` conversion used when dispatching the command panic
(modelled as `none`) instead of returning an error to the client. -/
theorem invalid_base64_panics (pd : ProgramData) (h : pd.hasInvalidData) :
    pd.decode_both = none ∧ programDataToDevice pd = none := by
  have hdb : pd.decode_both = none := by
    cases pd with
    | hot s =>
      simp only [ProgramData.hasInvalidData] at h
      simp [ProgramData.decode_both, h]
    | cold s =>
      simp only [ProgramData.hasInvalidData] at h
      simp [ProgramData.decode_both, h]
    | both hs cs =>
      simp only [ProgramData.hasInvalidData] at h
      rcases h with h | h
      · simp [ProgramData.decode_both, h]
      · cases hh : base64Decode hs <;> simp [ProgramData.decode_both, hh, h]
  exact ⟨hdb, by simp [programDataToDevice, hdb]⟩

/-- Closed witness for `invalid_base64_panics`: the payload string
"!!!!" is not valid base64 and the conversion panics on it. -/
theorem invalid_base64_panics_witness :
    (ProgramData.hot "!!!!").hasInvalidData ∧
    (ProgramData.hot "!!!!").decode_both = none ∧
    programDataToDevice (ProgramData.hot "!!!!") = none :=
  ⟨rfl, invalid_base64_panics (ProgramData.hot "!!!!") rfl⟩

end V5ctl
